import Mathlib

/-!
Verification development for the sidecar tiered-watcher and agent-session
status classifiers.  The Go sources are shallowly embedded: times are Int
nanoseconds (Go UnixNano), file systems are explicit lists of parsed files,
and each Go function is translated into a Lean function of the same name.
-/

namespace Sidecar

/-! Time units, mirroring Go time.Duration values in nanoseconds. -/

def millisecond : Int := 1000000

def second : Int := 1000 * millisecond

def minute : Int := 60 * second

/-- claudeActivityThreshold from agent_session.go (5s). -/
def claudeActivityThreshold : Int := 5 * second

/-- sessionActivityThreshold from agent_session.go (30s). -/
def sessionActivityThreshold : Int := 30 * second

/-- subagentMaxStaleness from agent_session.go (2 min). -/
def subagentMaxStaleness : Int := 2 * minute

/-! String primitives.  Go strings.HasSuffix, strings.HasPrefix and
strings.TrimSpace are modelled on character lists (TrimSpace over the ASCII
whitespace the session files contain), keeping every definition kernel
computable. -/

/-- strings.HasSuffix. -/
def strHasSuffix (s suf : String) : Bool := List.isSuffixOf suf.toList s.toList

/-- strings.HasPrefix. -/
def strHasPrefix (s pre : String) : Bool := List.isPrefixOf pre.toList s.toList

/-- ASCII whitespace recognized by the TrimSpace model. -/
def isSpaceChar (c : Char) : Bool := c == ' ' || c == '\t' || c == '\n' || c == '\r'

/-- Drop leading whitespace characters. -/
def dropSpaces : List Char → List Char
  | [] => []
  | c :: rest => if isSpaceChar c then dropSpaces rest else c :: rest

/-- strings.TrimSpace. -/
def trimSpace (s : String) : String :=
  String.mk (List.reverse (dropSpaces (List.reverse (dropSpaces s.toList))))

/-- WorktreeStatus: closed enum of activity states.  The Go zero value
(0, paired with found=false) is modelled by Option.none at use sites. -/
inductive WorktreeStatus
  | active
  | thinking
  | waiting
  | done
deriving DecidableEq, Repr

/-- isFileRecentlyModified: time.Since(info.ModTime()) < threshold,
with the current instant passed explicitly. -/
def isFileRecentlyModified (now mtime threshold : Int) : Bool :=
  now - mtime < threshold

/-! Claude JSONL content model.  Each parsed line of the 2MB tail becomes one
entry; lines that fail json.Unmarshal or carry no string type field are
ClaudeEntry.other.  An assistant entry carries message.content when that field
is a JSON list (none when message or content is absent or not a list). -/

/-- One element of an assistant message content list: a text block with its
text field (missing text decodes to ""), a tool-invocation block, an object of
another type, or a list element that is not a JSON object. -/
inductive CBlock
  | text (s : String)
  | toolUse
  | otherType
  | notMap
deriving DecidableEq, Repr

/-- One parsed JSONL line of a Claude session file. -/
inductive ClaudeEntry
  | user
  | assistant (content : Option (List CBlock))
  | other
deriving DecidableEq, Repr

/-- isPlaceholderAssistant from agent_session.go: content is a list whose
blocks are all text blocks with whitespace-only text (an empty list counts). -/
def isPlaceholderAssistant : Option (List CBlock) → Bool
  | none => false
  | some blocks =>
    blocks.all fun b =>
      match b with
      | CBlock.text s => trimSpace s == ""
      | _ => false

/-- hasToolUse from agent_session.go: some content block is a tool_use
block (non-object blocks are skipped). -/
def hasToolUse : Option (List CBlock) → Bool
  | none => false
  | some blocks =>
    blocks.any fun b =>
      match b with
      | CBlock.toolUse => true
      | _ => false

/-- Backward scan of getClaudeSessionStatus, on the reversed entry list:
the first user or assistant entry decides the status. -/
def claudeScanBack : List ClaudeEntry → Option WorktreeStatus
  | [] => none
  | ClaudeEntry.user :: _ => some WorktreeStatus.active
  | ClaudeEntry.assistant c :: _ =>
    if isPlaceholderAssistant c then some WorktreeStatus.thinking
    else if hasToolUse c then some WorktreeStatus.waiting
    else some WorktreeStatus.done
  | ClaudeEntry.other :: rest => claudeScanBack rest

/-- getClaudeSessionStatus from agent_session.go: status of the last
user/assistant entry in the file tail; none models (0, false). -/
def getClaudeSessionStatus (entries : List ClaudeEntry) : Option WorktreeStatus :=
  claudeScanBack entries.reverse

/-! Directory listings.  A sub-agent file and a main session file carry their
base name, mtime (UnixNano) and parsed content; a main session file also
carries the listing of its subagents directory. -/

structure SubFile where
  name : String
  mtime : Int
  entries : List ClaudeEntry
deriving DecidableEq, Repr

structure SessFile where
  name : String
  mtime : Int
  entries : List ClaudeEntry
  subagents : List SubFile
deriving DecidableEq, Repr

/-- Insertion step of the comparison sort used by sort.Slice; before x y
means x is ordered before y. -/
def insertBy {α : Type} (before : α → α → Bool) (x : α) : List α → List α
  | [] => [x]
  | y :: rest => if before x y then x :: y :: rest else y :: insertBy before x rest

/-- Comparison sort modelling sort.Slice.  sort.Slice is unstable; this
insertion sort agrees with it whenever the sort keys are distinct, which
holds in every scenario below. -/
def sortBy {α : Type} (before : α → α → Bool) : List α → List α
  | [] => []
  | x :: rest => insertBy before x (sortBy before rest)

/-- findRecentJSONLFiles from agent_session.go, generic over the file record:
keep files whose name ends in .jsonl and does not start with the excluded
prefix, sorted by mtime descending. -/
def findRecentJSONLFilesBy {α : Type} (nameOf : α → String) (mtimeOf : α → Int)
    (dir : List α) (exclPre : String) : List α :=
  sortBy (fun f g => mtimeOf f > mtimeOf g)
    (dir.filter fun f =>
      strHasSuffix (nameOf f) ".jsonl" &&
      !(exclPre != "" && strHasPrefix (nameOf f) exclPre))

/-- Most recently modified .jsonl sub-agent file: the strict-max scan of
subagentStatus, whose running best mtime starts at 0 (so files with
non-positive mtime are never selected, as in the Go int64 scan). -/
def mostRecentSub (dir : List SubFile) : Option SubFile :=
  dir.foldl
    (fun acc f =>
      if strHasSuffix f.name ".jsonl" then
        match acc with
        | none => if f.mtime > 0 then some f else none
        | some g => if f.mtime > g.mtime then some f else acc
      else acc)
    none

/-- subagentStatus from agent_session.go: classify the most recently modified
sub-agent file with the same JSONL + mtime logic; none models (0, false). -/
def subagentStatus (now : Int) (dir : List SubFile) (mtimeThreshold : Int) :
    Option WorktreeStatus :=
  match mostRecentSub dir with
  | none => none
  | some f =>
    if !isFileRecentlyModified now f.mtime subagentMaxStaleness then none
    else
      match getClaudeSessionStatus f.entries with
      | none => none
      | some st =>
        match st with
        | WorktreeStatus.active =>
          if isFileRecentlyModified now f.mtime mtimeThreshold then
            some WorktreeStatus.active
          else some WorktreeStatus.thinking
        | WorktreeStatus.thinking => some WorktreeStatus.thinking
        | WorktreeStatus.waiting =>
          if isFileRecentlyModified now f.mtime mtimeThreshold then
            some WorktreeStatus.active
          else none
        | WorktreeStatus.done =>
          if isFileRecentlyModified now f.mtime mtimeThreshold then
            some WorktreeStatus.active
          else none

/-- Tail of the detectClaudeSessionStatus candidate body once the parsed
status is a real assistant message (waiting or done): fresh mtime forces
active, otherwise an active sub-agent overrides, otherwise the parsed status
stands. -/
def claudeAssistantTail (now : Int) (f : SessFile) (st : WorktreeStatus) :
    Option WorktreeStatus :=
  if isFileRecentlyModified now f.mtime claudeActivityThreshold then
    some WorktreeStatus.active
  else
    match subagentStatus now f.subagents claudeActivityThreshold with
    | some sub => some sub
    | none => some st

/-- Candidate loop of detectClaudeSessionStatus: skip files with no
recognized entry, otherwise classify by content, mtime and sub-agents. -/
def detectClaudeFrom (now : Int) : List SessFile → Option WorktreeStatus
  | [] => none
  | f :: rest =>
    match getClaudeSessionStatus f.entries with
    | none => detectClaudeFrom now rest
    | some WorktreeStatus.active =>
      if isFileRecentlyModified now f.mtime claudeActivityThreshold then
        some WorktreeStatus.active
      else some WorktreeStatus.thinking
    | some WorktreeStatus.thinking => some WorktreeStatus.thinking
    | some WorktreeStatus.waiting => claudeAssistantTail now f WorktreeStatus.waiting
    | some WorktreeStatus.done => claudeAssistantTail now f WorktreeStatus.done

/-- detectClaudeSessionStatus from agent_session.go, taking the project
directory listing in place of the home-relative path resolution. -/
def detectClaudeSessionStatus (now : Int) (projectDir : List SessFile) :
    Option WorktreeStatus :=
  detectClaudeFrom now (findRecentJSONLFilesBy SessFile.name SessFile.mtime projectDir "agent-")

/-! Codex classifier. -/

/-- One parsed JSONL line of a Codex session: a response_item message record
with its payload role, or anything else. -/
inductive CodexEntry
  | message (role : String)
  | other
deriving DecidableEq, Repr

structure CodexFile where
  mtime : Int
  entries : List CodexEntry
deriving DecidableEq, Repr

/-- Backward scan of getCodexLastMessageStatus: first message record with an
assistant or user role decides; other roles keep scanning. -/
def codexScanBack : List CodexEntry → Option WorktreeStatus
  | [] => none
  | CodexEntry.message r :: rest =>
    if r == "assistant" then some WorktreeStatus.waiting
    else if r == "user" then some WorktreeStatus.active
    else codexScanBack rest
  | CodexEntry.other :: rest => codexScanBack rest

/-- getCodexLastMessageStatus from agent_session.go. -/
def getCodexLastMessageStatus (f : CodexFile) : Option WorktreeStatus :=
  codexScanBack f.entries.reverse

/-- detectCodexSessionStatus from agent_session.go, taking the result of
findCodexSessionForPath (the located session file, if any) as input: fresh
mtime short-circuits to active before any content parsing. -/
def detectCodexSessionStatus (now : Int) (located : Option CodexFile) :
    Option WorktreeStatus :=
  match located with
  | none => none
  | some f =>
    if isFileRecentlyModified now f.mtime sessionActivityThreshold then
      some WorktreeStatus.active
    else getCodexLastMessageStatus f

/-! Pi classifier. -/

/-- One parsed JSONL line of a Pi session: a message-typed entry with its
nested role, or anything else. -/
inductive PiEntry
  | message (role : String)
  | other
deriving DecidableEq, Repr

structure PiFile where
  name : String
  mtime : Int
  entries : List PiEntry
deriving DecidableEq, Repr

/-- Forward scan of getPiLastMessageStatus: lastRole after reading every
line, starting from the empty string. -/
def piLastRole (entries : List PiEntry) : String :=
  entries.foldl
    (fun acc e =>
      match e with
      | PiEntry.message r => if r == "user" || r == "assistant" then r else acc
      | PiEntry.other => acc)
    ""

/-- getPiLastMessageStatus from agent_session.go. -/
def getPiLastMessageStatus (f : PiFile) : Option WorktreeStatus :=
  let r := piLastRole f.entries
  if r == "user" then some WorktreeStatus.active
  else if r == "assistant" then some WorktreeStatus.waiting
  else none

/-- detectPiSessionStatus from agent_session.go: only the most recent
candidate is inspected; fresh mtime short-circuits to active. -/
def detectPiSessionStatus (now : Int) (projectDir : List PiFile) :
    Option WorktreeStatus :=
  match findRecentJSONLFilesBy PiFile.name PiFile.mtime projectDir "" with
  | [] => none
  | f :: _ =>
    if isFileRecentlyModified now f.mtime sessionActivityThreshold then
      some WorktreeStatus.active
    else getPiLastMessageStatus f

/-! Tiered watcher (package tieredwatcher).  The Go map from session ID to
SessionInfo pointer is modelled as a list in insertion order (Go map
iteration order is unspecified; every scenario below uses distinct sort keys,
where the order cannot matter).  Each time.Now() call receives its value as
an explicit argument; the up-to-three calls inside one auto-promotion batch
are modelled as one instant. -/

/-- MaxHotSessions from tieredwatcher. -/
def maxHotSessions : Nat := 3

/-- HotInactivityTimeout from tieredwatcher (5 min). -/
def hotInactivityTimeout : Int := 5 * minute

/-- SessionInfo from tieredwatcher. -/
structure SessionInfo where
  id : String
  path : String
  modTime : Int
  lastHot : Int
  fileSize : Int
deriving DecidableEq, Repr

/-- Mutable state of one TieredWatcher: the session map, the HOT tier list
and the watched-directory set (as an insertion-ordered list). -/
structure TWState where
  sessions : List SessionInfo
  hotIds : List String
  watchDirs : List String
deriving DecidableEq, Repr

/-- Ambient file-path operations of the watcher: filepath.Dir and whether
watcher.Add on a directory succeeds. -/
structure WatchEnv where
  dirOf : String → String
  addOk : String → Bool

/-- Go map read tw.sessions[id]. -/
def lookupSession (sessions : List SessionInfo) (id : String) : Option SessionInfo :=
  sessions.find? fun s => s.id == id

/-- Write-back of a mutated SessionInfo pointer (the entry with this ID takes
the new value; all other entries are untouched). -/
def updateSession (sessions : List SessionInfo) (info : SessionInfo) : List SessionInfo :=
  sessions.map fun s => if s.id == info.id then info else s

/-- Directory-watch step shared by PromoteToHot and autoPromoteRecentLocked:
watch the session's directory if not already watched, recording it only when
watcher.Add succeeds. -/
def addWatchDir (env : WatchEnv) (s : TWState) (path : String) : TWState :=
  let dir := env.dirOf path
  if s.watchDirs.contains dir then s
  else if env.addOk dir then { s with watchDirs := s.watchDirs ++ [dir] } else s

/-- One step of the demoteOldestLocked scan: a looked-up session with
LastHot strictly before the running best replaces it. -/
def demoteStep (sessions : List SessionInfo) (acc : Nat × Int) (p : Nat × String) :
    Nat × Int :=
  match lookupSession sessions p.2 with
  | some info => if info.lastHot < acc.2 then (p.1, info.lastHot) else acc
  | none => acc

/-- Scan of demoteOldestLocked over the indexed HOT list: running best
(index, LastHot), starting from (0, now). -/
def demoteOldestScan (sessions : List SessionInfo) (hot : List (Nat × String))
    (best : Nat × Int) : Nat × Int :=
  hot.foldl (demoteStep sessions) best

/-- demoteOldestLocked from tieredwatcher: remove the HOT entry with the
oldest LastHot (first index on ties; index 0 when no entry is strictly older
than now). -/
def demoteOldestLocked (now : Int) (s : TWState) : TWState :=
  if s.hotIds.isEmpty then s
  else
    let best := demoteOldestScan s.sessions s.hotIds.enum (0, now)
    { s with hotIds := s.hotIds.eraseIdx best.1 }

/-- PromoteToHot from tieredwatcher.  now is the time.Now() of the LastHot
update, nowDemote the time.Now() inside demoteOldestLocked. -/
def promoteToHot (env : WatchEnv) (now nowDemote : Int) (s : TWState)
    (sessionID : String) : TWState :=
  match lookupSession s.sessions sessionID with
  | none => s
  | some info =>
    let info1 := { info with lastHot := now }
    let s1 : TWState := { s with sessions := updateSession s.sessions info1 }
    if s1.hotIds.contains sessionID then s1
    else
      let s2 : TWState := { s1 with hotIds := s1.hotIds ++ [sessionID] }
      let s3 := if s2.hotIds.length > maxHotSessions then demoteOldestLocked nowDemote s2 else s2
      addWatchDir env s3 info1.path

/-- RegisterSession from tieredwatcher, with the os.Stat result passed as
an optional (modTime, size) pair. -/
def registerSession (s : TWState) (id path : String) (stat : Option (Int × Int)) : TWState :=
  match lookupSession s.sessions id with
  | some _ => s
  | none =>
    let info : SessionInfo :=
      match stat with
      | some p => { id := id, path := path, modTime := p.1, lastHot := 0, fileSize := p.2 }
      | none => { id := id, path := path, modTime := 0, lastHot := 0, fileSize := 0 }
    { s with sessions := s.sessions ++ [info] }

/-- Registration loop of RegisterSessions: already-known IDs are skipped,
new ones are added with the batch ModTime and FileSize and zero LastHot. -/
def addNewSessions (s : TWState) (batch : List SessionInfo) : TWState :=
  batch.foldl
    (fun st nf =>
      match lookupSession st.sessions nf.id with
      | some _ => st
      | none => { st with sessions := st.sessions ++ [{ nf with lastHot := 0 }] })
    s

/-- Per-session body of the auto-promotion loop: refresh LastHot, append to
the HOT list when absent (with no capacity check), watch the directory. -/
def autoPromoteOne (env : WatchEnv) (now : Int) (s : TWState) (id : String) : TWState :=
  match lookupSession s.sessions id with
  | none => s
  | some info =>
    let info1 := { info with lastHot := now }
    let s1 : TWState := { s with sessions := updateSession s.sessions info1 }
    let s2 : TWState :=
      if s1.hotIds.contains id then s1 else { s1 with hotIds := s1.hotIds ++ [id] }
    addWatchDir env s2 info1.path

/-- autoPromoteRecentLocked from tieredwatcher: promote the (at most) three
most recently modified sessions. -/
def autoPromoteRecentLocked (env : WatchEnv) (now : Int) (s : TWState) : TWState :=
  if s.sessions.isEmpty then s
  else
    let sorted := sortBy (fun a b => SessionInfo.modTime a > SessionInfo.modTime b) s.sessions
    (sorted.take maxHotSessions).foldl (fun st info => autoPromoteOne env now st info.id) s

/-- RegisterSessions from tieredwatcher: add the batch, then auto-promote. -/
def registerSessions (env : WatchEnv) (now : Int) (s : TWState)
    (batch : List SessionInfo) : TWState :=
  autoPromoteRecentLocked env now (addNewSessions s batch)

/-- demoteInactive from tieredwatcher: keep HOT entries whose LastHot is
after now minus the inactivity timeout. -/
def demoteInactive (now : Int) (s : TWState) : TWState :=
  { s with
    hotIds := s.hotIds.filter fun id =>
      match lookupSession s.sessions id with
      | some info => now - hotInactivityTimeout < info.lastHot
      | none => false }

/-- Manager.PromoteSession from tieredwatcher: broadcast PromoteToHot to
every owned watcher. -/
def managerPromoteSession (env : WatchEnv) (now nowDemote : Int)
    (watchers : List TWState) (sessionID : String) : List TWState :=
  watchers.map fun tw => promoteToHot env now nowDemote tw sessionID

/-! Bounded Codex cwd metadata cache (codexSessionCwdCache).  The Go map is
modelled as an association list keyed by file path. -/

/-- codexCwdCacheMaxEntries from agent_session.go. -/
def codexCwdCacheMaxEntries : Nat := 2048

/-- os.FileInfo restricted to the fields the cache compares. -/
structure FileInfo where
  modTime : Int
  size : Int
deriving DecidableEq, Repr

/-- codexSessionCwdCacheEntry from agent_session.go. -/
structure CwdEntry where
  cwd : String
  modTime : Int
  size : Int
  lastAccess : Int
deriving DecidableEq, Repr

/-- The cwd cache map. -/
abbrev CwdCache : Type := List (String × CwdEntry)

/-- Go map read of the cwd cache. -/
def cacheLookup (cache : CwdCache) (path : String) : Option CwdEntry :=
  (List.find? (fun p => p.1 == path) cache).map fun p => p.2

/-- Go map delete of the cwd cache. -/
def cacheErase (cache : CwdCache) (path : String) : CwdCache :=
  List.filter (fun p => !(p.1 == path)) cache

/-- Go map assignment of the cwd cache. -/
def cacheSet (cache : CwdCache) (path : String) (e : CwdEntry) : CwdCache :=
  cacheErase cache path ++ [(path, e)]

/-- cachedCodexSessionCWD from agent_session.go: a hit requires the stored
size and mtime to equal the live file's and refreshes lastAccess; a present
but mismatched entry is deleted; the result pairs the updated cache with the
cwd when found. -/
def cachedCodexSessionCWD (now : Int) (cache : CwdCache) (path : String)
    (info : FileInfo) : CwdCache × Option String :=
  match cacheLookup cache path with
  | some entry =>
    if entry.size == info.size && entry.modTime == info.modTime then
      (cacheSet cache path { entry with lastAccess := now }, some entry.cwd)
    else (cacheErase cache path, none)
  | none => (cache, none)

/-- One parsed line scanned by getCodexSessionCWD: a session_meta record with
its payload cwd, or anything else. -/
inductive CodexMetaEntry
  | sessionMeta (cwd : String)
  | other
deriving DecidableEq, Repr

/-- Line scan of getCodexSessionCWD: first session_meta record with a
non-empty cwd. -/
def scanSessionMeta : List CodexMetaEntry → Option String
  | [] => none
  | CodexMetaEntry.sessionMeta cwd :: rest =>
    if cwd == "" then scanSessionMeta rest else some cwd
  | CodexMetaEntry.other :: rest => scanSessionMeta rest

/-- pruneCodexSessionCWDCacheLocked from agent_session.go: past the entry
cap, evict the least-recently-accessed entries. -/
def pruneCodexSessionCWDCacheLocked (cache : CwdCache) : CwdCache :=
  if cache.length ≤ codexCwdCacheMaxEntries then cache
  else
    let sorted := sortBy (fun p q : String × Int => p.2 < q.2)
      (List.map (fun p : String × CwdEntry => (p.1, p.2.lastAccess)) cache)
    let excess := cache.length - codexCwdCacheMaxEntries
    (sorted.take excess).foldl (fun c p => cacheErase c p.1) cache

/-- setCodexSessionCWDCache from agent_session.go. -/
def setCodexSessionCWDCache (now : Int) (cache : CwdCache) (path : String)
    (info : FileInfo) (cwd : String) : CwdCache :=
  pruneCodexSessionCWDCacheLocked
    (cacheSet cache path { cwd := cwd, modTime := info.modTime, size := info.size, lastAccess := now })

/-- getCodexSessionCWD from agent_session.go: consult the cache, else scan
the file's lines for the first session_meta cwd and cache it; an exhausted
scan yields the empty string and caches nothing. -/
def getCodexSessionCWD (now : Int) (cache : CwdCache) (path : String)
    (info : FileInfo) (fileLines : List CodexMetaEntry) : CwdCache × String :=
  match cachedCodexSessionCWD now cache path info with
  | (cache1, some cwd) => (cache1, cwd)
  | (cache1, none) =>
    match scanSessionMeta fileLines with
    | some cwd => (setCodexSessionCWDCache now cache1 path info cwd, cwd)
    | none => (cache1, "")

/-! Debounced notification consumer (watchLoop).  One settle window is
modelled: a burst of fsnotify events each arriving within the debounce delay
of the previous one, after which the single timer fires once.  The shared
lastPath and the captured event of the surviving timer both belong to the
last accepted event of the burst. -/

/-- debounceDelay from watchLoop (100ms). -/
def debounceDelay : Int := 100 * millisecond

/-- fsnotify.Op restricted to the bits watchLoop inspects. -/
structure FsOp where
  create : Bool
  write : Bool
  remove : Bool
deriving DecidableEq, Repr

/-- fsnotify.Event. -/
structure FsEvent where
  name : String
  op : FsOp
deriving DecidableEq, Repr

/-- adapter.EventType values emitted by the watcher. -/
inductive EventType
  | sessionCreated
  | messageAdded
  | sessionUpdated
deriving DecidableEq, Repr

/-- adapter.Event. -/
structure Event where
  type : EventType
  sessionID : String
deriving DecidableEq, Repr

/-- Watcher configuration fields read by watchLoop. -/
structure WatchCfg where
  filePattern : String
  extractID : String → String

/-- filepath.Ext: the suffix beginning at the final dot in the final path
element, empty when that element has no dot. -/
def extRev : List Char → List Char → String
  | _, [] => ""
  | acc, c :: rest =>
    if c == '/' then ""
    else if c == '.' then String.mk ('.' :: acc)
    else extRev (c :: acc) rest

/-- filepath.Ext on a path string. -/
def pathExt (name : String) : String :=
  extRev [] name.toList.reverse

/-- Extension filter of watchLoop: events whose name does not carry the
configured extension are dropped before touching the debounce timer. -/
def filteredBurst (cfg : WatchCfg) (burst : List FsEvent) : List FsEvent :=
  burst.filter fun e => cfg.filePattern == "" || pathExt e.name == cfg.filePattern

/-- Timer callback of watchLoop: map the captured event's op to an event
type (Create, then Write, then Remove-swallowed, else Updated) for the
session extracted from the last path. -/
def fireDebounce (cfg : WatchCfg) (e : FsEvent) : Option Event :=
  if e.op.create then some { type := EventType.sessionCreated, sessionID := cfg.extractID e.name }
  else if e.op.write then some { type := EventType.messageAdded, sessionID := cfg.extractID e.name }
  else if e.op.remove then none
  else some { type := EventType.sessionUpdated, sessionID := cfg.extractID e.name }

/-- Events emitted for one settle window: only the last accepted event's
timer survives the resets, so at most one event is emitted per burst. -/
def emittedEvents (cfg : WatchCfg) (burst : List FsEvent) : List Event :=
  match (filteredBurst cfg burst).getLast? with
  | none => []
  | some e =>
    match fireDebounce cfg e with
    | none => []
    | some ev => [ev]

/-! Concrete scenarios used as evidence below. -/

/-- Ambient path operations for scenarios: every session lives in one
directory and watcher.Add always succeeds. -/
def env0 : WatchEnv := { dirOf := fun _ => "dir", addOk := fun _ => true }

/-- Batch SessionInfo as built by the scanning callers of RegisterSessions. -/
def mkSI (id path : String) (mt : Int) : SessionInfo :=
  { id := id, path := path, modTime := mt, lastHot := 0, fileSize := 1 }

/-- Fresh watcher state. -/
def twInit : TWState := { sessions := [], hotIds := [], watchDirs := [] }

/-- Two RegisterSessions batches of three sessions each, the second batch
more recently modified than the first. -/
def c1State : TWState :=
  registerSessions env0 200
    (registerSessions env0 100 twInit [mkSI "a" "pa" 10, mkSI "b" "pb" 20, mkSI "c" "pc" 30])
    [mkSI "d" "pd" 40, mkSI "e" "pe" 50, mkSI "f" "pf" 60]

/-- PromoteToHot with a strictly later demotion-scan instant, as the
monotonic clock delivers. -/
def promoteAt (now : Int) (s : TWState) (id : String) : TWState :=
  promoteToHot env0 now (now + 1) s id

/-- One batch of five sessions, then PromoteToHot on each in order at
strictly increasing times. -/
def c6State : TWState :=
  promoteAt 109
    (promoteAt 107
      (promoteAt 105
        (promoteAt 103
          (promoteAt 101
            (registerSessions env0 100 twInit
              [mkSI "s1" "p1" 10, mkSI "s2" "p2" 20, mkSI "s3" "p3" 30,
               mkSI "s4" "p4" 40, mkSI "s5" "p5" 50])
            "s1")
          "s2")
        "s3")
      "s4")
    "s5"

/-- HOT list at capacity with distinct LastHot stamps, for the eviction
witness. -/
def c6CapState : TWState :=
  { sessions :=
      [{ id := "a", path := "pa", modTime := 1, lastHot := 11, fileSize := 1 },
       { id := "b", path := "pb", modTime := 2, lastHot := 12, fileSize := 1 },
       { id := "c", path := "pc", modTime := 3, lastHot := 13, fileSize := 1 },
       { id := "d", path := "pd", modTime := 4, lastHot := 0, fileSize := 1 }],
    hotIds := ["a", "b", "c"],
    watchDirs := ["dir"] }

/-- Reference instant of the classifier scenarios. -/
def tNow : Int := 1000 * second

/-- Single fresh candidate whose only line is unparseable. -/
def c2Dir : List SessFile :=
  [{ name := "x.jsonl", mtime := tNow - second, entries := [ClaudeEntry.other],
     subagents := [] }]

/-- Stale Done-eligible parent with a sub-agent file written 10s ago whose
last entry is a user message. -/
def c3Dir : List SessFile :=
  [{ name := "p.jsonl", mtime := tNow - 60 * second,
     entries := [ClaudeEntry.assistant (some [CBlock.text "hi"])],
     subagents := [{ name := "s.jsonl", mtime := tNow - 10 * second,
                     entries := [ClaudeEntry.user] }] }]

/-- Pi project directory: the newest file has no recognized role, the older
one ends with an assistant message. -/
def c4Dir : List PiFile :=
  [{ name := "new.jsonl", mtime := tNow - 60 * second, entries := [PiEntry.other] },
   { name := "old.jsonl", mtime := tNow - 120 * second,
     entries := [PiEntry.message "assistant"] }]

/-- Watcher configuration of the debounce scenarios. -/
def cfg0 : WatchCfg := { filePattern := ".jsonl", extractID := fun n => n }

/-- Write burst touching two distinct paths inside one settle window. -/
def burst2 : List FsEvent :=
  [{ name := "a.jsonl", op := { create := false, write := true, remove := false } },
   { name := "b.jsonl", op := { create := false, write := true, remove := false } }]

/-- Cache with one entry for the recomputation witness. -/
def c9Cache : CwdCache :=
  [("/f", { cwd := "/w", modTime := 5, size := 7, lastAccess := 0 })]

/-- Single-session watcher state for the unknown-ID frame witness. -/
def c10State : TWState :=
  { sessions := [mkSI "x" "px" 1], hotIds := [], watchDirs := [] }


/-! Further concrete scenarios. -/

/-- Single-candidate directory whose only entry is a trailing user message. -/
def c7FileAt (mt : Int) : SessFile :=
  { name := "f.jsonl", mtime := mt, entries := [ClaudeEntry.user], subagents := [] }

/-- Stale candidate whose trailing assistant message has the given content
blocks. -/
def c8FileWith (bs : List CBlock) : SessFile :=
  { name := "f.jsonl", mtime := tNow - 60 * second,
    entries := [ClaudeEntry.user, ClaudeEntry.assistant (some bs)], subagents := [] }

/-- Sub-agent file last touched beyond the staleness ceiling. -/
def c3OldSub : SubFile :=
  { name := "s.jsonl", mtime := tNow - 3 * minute, entries := [ClaudeEntry.user] }

/-- Sub-agent file modified 10 seconds ago whose last entry is a user
message. -/
def c3Sub : SubFile :=
  { name := "s.jsonl", mtime := tNow - 10 * second, entries := [ClaudeEntry.user] }

/-- Stale Done-eligible parent with the 10s-old sub-agent. -/
def c3Parent : SessFile :=
  { name := "p.jsonl", mtime := tNow - 60 * second,
    entries := [ClaudeEntry.assistant (some [CBlock.text "hi"])],
    subagents := [c3Sub] }

/-- Stale Done-eligible parent with the abandoned sub-agent instead. -/
def c3ParentOld : SessFile :=
  { name := "p.jsonl", mtime := tNow - 60 * second,
    entries := [ClaudeEntry.assistant (some [CBlock.text "hi"])],
    subagents := [c3OldSub] }

/-- The older, valid Pi candidate of the fallthrough scenario. -/
def c4Old : PiFile :=
  { name := "old.jsonl", mtime := tNow - 120 * second,
    entries := [PiEntry.message "assistant"] }

/-- Freshly modified Codex session file with unparseable content. -/
def c2Codex : CodexFile := { mtime := tNow - second, entries := [CodexEntry.other] }

/-- Freshly modified Pi session file with unparseable content. -/
def c2Pi : PiFile := { name := "x.jsonl", mtime := tNow - second, entries := [PiEntry.other] }

/-- Single-event write burst. -/
def burstW : List FsEvent :=
  [{ name := "w.jsonl", op := { create := false, write := true, remove := false } }]

/-- Single-event create burst. -/
def burstC : List FsEvent :=
  [{ name := "c.jsonl", op := { create := true, write := true, remove := false } }]

/-- Single-event remove burst. -/
def burstR : List FsEvent :=
  [{ name := "r.jsonl", op := { create := false, write := false, remove := true } }]

/-- Live file metadata whose mtime advanced while the size is unchanged,
against the entry stored in c9Cache. -/
def c9LiveInfo : FileInfo := { modTime := 6, size := 7 }

/-- File content scanned on the forced recomputation. -/
def c9Lines : List CodexMetaEntry := [CodexMetaEntry.sessionMeta "/fresh"]


/-- Older, valid principal-format candidate: stale text-only assistant. -/
def c4ClaudeOld : SessFile :=
  { name := "old.jsonl", mtime := tNow - 120 * second,
    entries := [ClaudeEntry.assistant (some [CBlock.text "ok"])], subagents := [] }

/-- Newest principal-format candidate with no recognized role. -/
def c4ClaudeNew : SessFile :=
  { name := "new.jsonl", mtime := tNow - second, entries := [ClaudeEntry.other],
    subagents := [] }

/-! Helper lemmas. -/

theorem mem_insertBy {α : Type} (bf : α → α → Bool) (x y : α) (l : List α) :
    y ∈ insertBy bf x l ↔ y = x ∨ y ∈ l := by
  induction l with
  | nil => simp [insertBy]
  | cons z rest ih =>
    simp only [insertBy]
    split
    · simp
    · simp only [List.mem_cons, ih]
      tauto

theorem mem_sortBy {α : Type} (bf : α → α → Bool) (y : α) (l : List α) :
    y ∈ sortBy bf l ↔ y ∈ l := by
  induction l with
  | nil => simp [sortBy]
  | cons z rest ih => simp [sortBy, mem_insertBy, ih]

theorem lookupSession_id {sessions : List SessionInfo} {id : String}
    {info : SessionInfo} (h : lookupSession sessions id = some info) :
    info.id = id := by
  have h1 := List.find?_some h
  simpa using h1

theorem lookupSession_update_ne (sessions : List SessionInfo)
    (info : SessionInfo) (x : String) (hx : x ≠ info.id) :
    lookupSession (updateSession sessions info) x = lookupSession sessions x := by
  induction sessions with
  | nil => rfl
  | cons s rest ih =>
    have hmap : updateSession (s :: rest) info
        = (if (s.id == info.id) = true then info else s) :: updateSession rest info := rfl
    rw [hmap]
    unfold lookupSession at ih ⊢
    by_cases hs : (s.id == info.id) = true
    · have h1 : (info.id == x) = false := by
        simp only [beq_eq_false_iff_ne, ne_eq]
        exact fun h => hx h.symm
      have hsx : (s.id == x) = false := by
        simp only [beq_iff_eq] at hs
        simp only [beq_eq_false_iff_ne, ne_eq, hs]
        exact fun h => hx h.symm
      rw [if_pos hs]
      simp only [List.find?, h1, hsx]
      exact ih
    · rw [if_neg hs]
      by_cases h4 : (s.id == x) = true
      · simp only [List.find?, h4]
      · have h5 : (s.id == x) = false := by
          exact Bool.not_eq_true _ ▸ Bool.of_not_eq_true h4
        simp only [List.find?, h5]
        exact ih

theorem lookupSession_update_found (sessions : List SessionInfo)
    (info1 : SessionInfo) (h : (lookupSession sessions info1.id).isSome) :
    lookupSession (updateSession sessions info1) info1.id = some info1 := by
  induction sessions with
  | nil => simp [lookupSession] at h
  | cons s rest ih =>
    have hmap : updateSession (s :: rest) info1
        = (if (s.id == info1.id) = true then info1 else s) :: updateSession rest info1 := rfl
    rw [hmap]
    unfold lookupSession at ih h ⊢
    by_cases hs : (s.id == info1.id) = true
    · rw [if_pos hs]
      simp only [List.find?, beq_self_eq_true]
    · have h5 : (s.id == info1.id) = false := by
        exact Bool.not_eq_true _ ▸ Bool.of_not_eq_true hs
      rw [if_neg hs]
      simp only [List.find?, h5] at h ⊢
      exact ih h

theorem addWatchDir_hotIds (env : WatchEnv) (s : TWState) (p : String) :
    (addWatchDir env s p).hotIds = s.hotIds := by
  simp only [addWatchDir]
  split
  · rfl
  · split <;> rfl

theorem addWatchDir_sessions (env : WatchEnv) (s : TWState) (p : String) :
    (addWatchDir env s p).sessions = s.sessions := by
  simp only [addWatchDir]
  split
  · rfl
  · split <;> rfl

theorem contains_eq_false_of_not_mem {l : List String} {x : String}
    (h : x ∉ l) : l.contains x = false := by
  simp only [List.contains, List.elem_eq_mem, decide_eq_false_iff_not]
  exact h

theorem detectClaudeFrom_none (now : Int) (l : List SessFile)
    (h : ∀ f ∈ l, getClaudeSessionStatus f.entries = none) :
    detectClaudeFrom now l = none := by
  induction l with
  | nil => rfl
  | cons f rest ih =>
    have hf := h f (List.mem_cons_self f rest)
    simp only [detectClaudeFrom, hf]
    exact ih fun g hg => h g (List.mem_cons_of_mem f hg)

theorem findRecent_singleton {α : Type} (nameOf : α → String) (mtimeOf : α → Int)
    (f : α) (pre : String)
    (h1 : strHasSuffix (nameOf f) ".jsonl" = true)
    (h2 : (pre != "" && strHasPrefix (nameOf f) pre) = false) :
    findRecentJSONLFilesBy nameOf mtimeOf [f] pre = [f] := by
  unfold findRecentJSONLFilesBy
  simp only [List.filter, h1, h2, Bool.not_false, Bool.and_true]
  rfl

theorem findRecent_pair {α : Type} (nameOf : α → String) (mtimeOf : α → Int)
    (f g : α) (pre : String)
    (hf1 : strHasSuffix (nameOf f) ".jsonl" = true)
    (hf2 : (pre != "" && strHasPrefix (nameOf f) pre) = false)
    (hg1 : strHasSuffix (nameOf g) ".jsonl" = true)
    (hg2 : (pre != "" && strHasPrefix (nameOf g) pre) = false)
    (hmt : mtimeOf g < mtimeOf f) :
    findRecentJSONLFilesBy nameOf mtimeOf [f, g] pre = [f, g] := by
  unfold findRecentJSONLFilesBy
  simp only [List.filter, hf1, hf2, hg1, hg2, Bool.not_false, Bool.and_true]
  simp only [sortBy, insertBy, gt_iff_lt, decide_eq_true_eq]
  rw [if_pos hmt]


theorem mostRecentSub_singleton (sub : SubFile)
    (hsn : strHasSuffix sub.name ".jsonl" = true) (hpos : 0 < sub.mtime) :
    mostRecentSub [sub] = some sub := by
  simp only [mostRecentSub, List.foldl, hsn, if_true, gt_iff_lt]
  rw [if_pos hpos]

theorem cacheLookup_erase_self (cache : CwdCache) (path : String) :
    cacheLookup (cacheErase cache path) path = none := by
  induction cache with
  | nil => rfl
  | cons p rest ih =>
    simp only [cacheErase, List.filter] at *
    by_cases hp : p.1 = path
    · simp [hp, ih]
    · have h1 : (p.1 == path) = false := by simp [beq_iff_eq]; exact hp
      simp only [h1, Bool.not_false, cacheLookup, List.find?, h1] at *
      exact ih

theorem cachedCwd_mismatch (now : Int) (cache : CwdCache) (path : String)
    (info : FileInfo) (e : CwdEntry) (hl : cacheLookup cache path = some e)
    (hmis : e.modTime ≠ info.modTime ∨ e.size ≠ info.size) :
    cachedCodexSessionCWD now cache path info = (cacheErase cache path, none) := by
  unfold cachedCodexSessionCWD
  rw [hl]
  have hc : (e.size == info.size && e.modTime == info.modTime) = false := by
    cases hmis with
    | inl hm =>
      have hb : (e.modTime == info.modTime) = false := by
        simp only [beq_eq_false_iff_ne, ne_eq]
        exact hm
      simp [hb]
    | inr hs =>
      have hb : (e.size == info.size) = false := by
        simp only [beq_eq_false_iff_ne, ne_eq]
        exact hs
      simp [hb]
  simp only [hc, Bool.false_eq_true, if_false]

theorem demoteStep_lookup (sessions : List SessionInfo) (acc : Nat × Int)
    (i : Nat) (x : String) (info : SessionInfo)
    (h : lookupSession sessions x = some info) :
    demoteStep sessions acc (i, x) =
      if info.lastHot < acc.2 then (i, info.lastHot) else acc := by
  unfold demoteStep
  rw [h]

theorem promote_at_capacity_evicts_oldest (env : WatchEnv) (s : TWState) (a b c id : String)
    (ia ib ic info : SessionInfo) (now nowD : Int)
    (hhot : s.hotIds = [a, b, c])
    (hla : lookupSession s.sessions a = some ia)
    (hlb : lookupSession s.sessions b = some ib)
    (hlc : lookupSession s.sessions c = some ic)
    (hlid : lookupSession s.sessions id = some info)
    (hna : id ≠ a) (hnb : id ≠ b) (hnc : id ≠ c)
    (hman : ia.lastHot ≤ now) (hmbn : ib.lastHot ≤ now) (hmcn : ic.lastHot ≤ now)
    (hda : ia.lastHot < nowD) :
    (ia.lastHot < ib.lastHot ∧ ia.lastHot < ic.lastHot →
      (promoteToHot env now nowD s id).hotIds = [b, c, id]) ∧
    (ib.lastHot < ia.lastHot ∧ ib.lastHot < ic.lastHot →
      (promoteToHot env now nowD s id).hotIds = [a, c, id]) ∧
    (ic.lastHot < ia.lastHot ∧ ic.lastHot < ib.lastHot →
      (promoteToHot env now nowD s id).hotIds = [a, b, id]) := by
  have hids : info.id = id := lookupSession_id hlid
  have hinfo1id : ({ info with lastHot := now } : SessionInfo).id = id := hids
  have hla1 : lookupSession (updateSession s.sessions { info with lastHot := now }) a
      = some ia := by
    rw [lookupSession_update_ne _ _ _ (by rw [hinfo1id]; exact Ne.symm hna)]
    exact hla
  have hlb1 : lookupSession (updateSession s.sessions { info with lastHot := now }) b
      = some ib := by
    rw [lookupSession_update_ne _ _ _ (by rw [hinfo1id]; exact Ne.symm hnb)]
    exact hlb
  have hlc1 : lookupSession (updateSession s.sessions { info with lastHot := now }) c
      = some ic := by
    rw [lookupSession_update_ne _ _ _ (by rw [hinfo1id]; exact Ne.symm hnc)]
    exact hlc
  have hlid1 : lookupSession (updateSession s.sessions { info with lastHot := now }) id
      = some { info with lastHot := now } := by
    have hsome : (lookupSession s.sessions
        ({ info with lastHot := now } : SessionInfo).id).isSome := by
      rw [hinfo1id, hlid]
      rfl
    rw [← hinfo1id]
    exact lookupSession_update_found s.sessions { info with lastHot := now } hsome
  have hnotmem : id ∉ ([a, b, c] : List String) := by
    intro hmem
    rcases List.mem_cons.mp hmem with h | hmem2
    · exact hna h
    rcases List.mem_cons.mp hmem2 with h | hmem3
    · exact hnb h
    rcases List.mem_cons.mp hmem3 with h | hmem4
    · exact hnc h
    · exact List.not_mem_nil id hmem4
  have hcont : s.hotIds.contains id = false := by
    rw [hhot]
    exact contains_eq_false_of_not_mem hnotmem
  have hshape : promoteToHot env now nowD s id =
      addWatchDir env
        (demoteOldestLocked nowD
          { s with sessions := updateSession s.sessions { info with lastHot := now },
                   hotIds := s.hotIds ++ [id] })
        info.path := by
    unfold promoteToHot
    rw [hlid]
    dsimp only
    rw [hcont]
    simp only [Bool.false_eq_true, if_false]
    rw [if_pos (by rw [hhot]; simp [maxHotSessions])]
  have hdemote : demoteOldestLocked nowD
      { s with sessions := updateSession s.sessions { info with lastHot := now },
               hotIds := s.hotIds ++ [id] } =
      { s with sessions := updateSession s.sessions { info with lastHot := now },
               hotIds := (s.hotIds ++ [id]).eraseIdx
                 (demoteOldestScan
                   (updateSession s.sessions { info with lastHot := now })
                   ((s.hotIds ++ [id]).enum) (0, nowD)).1 } := by
    unfold demoteOldestLocked
    rw [if_neg (by rw [hhot]; simp)]
  have henum : (s.hotIds ++ [id]).enum = [(0, a), (1, b), (2, c), (3, id)] := by
    rw [hhot]
    rfl
  rw [hshape, hdemote, henum]
  have e1 : demoteStep (updateSession s.sessions { info with lastHot := now })
      (0, nowD) (0, a) = (0, ia.lastHot) := by
    rw [demoteStep_lookup _ _ _ _ _ hla1]
    dsimp only
    rw [if_pos hda]
  refine ⟨?_, ?_, ?_⟩
  · intro hmin
    have e2 : demoteStep (updateSession s.sessions { info with lastHot := now })
        (0, ia.lastHot) (1, b) = (0, ia.lastHot) := by
      rw [demoteStep_lookup _ _ _ _ _ hlb1]
      dsimp only
      rw [if_neg (by exact fun h => absurd hmin.1 (not_lt_of_gt h))]
    have e3 : demoteStep (updateSession s.sessions { info with lastHot := now })
        (0, ia.lastHot) (2, c) = (0, ia.lastHot) := by
      rw [demoteStep_lookup _ _ _ _ _ hlc1]
      dsimp only
      rw [if_neg (by exact fun h => absurd hmin.2 (not_lt_of_gt h))]
    have e4 : demoteStep (updateSession s.sessions { info with lastHot := now })
        (0, ia.lastHot) (3, id) = (0, ia.lastHot) := by
      rw [demoteStep_lookup _ _ _ _ _ hlid1]
      dsimp only
      rw [if_neg (by exact fun h => absurd (lt_of_lt_of_le h hman) (lt_irrefl _))]
    have hscan : demoteOldestScan
        (updateSession s.sessions { info with lastHot := now })
        [(0, a), (1, b), (2, c), (3, id)] (0, nowD) = (0, ia.lastHot) := by
      unfold demoteOldestScan
      simp only [List.foldl_cons, List.foldl_nil, e1, e2, e3, e4]
    rw [hscan, addWatchDir_hotIds]
    rw [hhot]
    rfl
  · intro hmin
    have e2 : demoteStep (updateSession s.sessions { info with lastHot := now })
        (0, ia.lastHot) (1, b) = (1, ib.lastHot) := by
      rw [demoteStep_lookup _ _ _ _ _ hlb1]
      dsimp only
      rw [if_pos hmin.1]
    have e3 : demoteStep (updateSession s.sessions { info with lastHot := now })
        (1, ib.lastHot) (2, c) = (1, ib.lastHot) := by
      rw [demoteStep_lookup _ _ _ _ _ hlc1]
      dsimp only
      rw [if_neg (by exact fun h => absurd hmin.2 (not_lt_of_gt h))]
    have e4 : demoteStep (updateSession s.sessions { info with lastHot := now })
        (1, ib.lastHot) (3, id) = (1, ib.lastHot) := by
      rw [demoteStep_lookup _ _ _ _ _ hlid1]
      dsimp only
      rw [if_neg (by exact fun h => absurd (lt_of_lt_of_le h hmbn) (lt_irrefl _))]
    have hscan : demoteOldestScan
        (updateSession s.sessions { info with lastHot := now })
        [(0, a), (1, b), (2, c), (3, id)] (0, nowD) = (1, ib.lastHot) := by
      unfold demoteOldestScan
      simp only [List.foldl_cons, List.foldl_nil, e1, e2, e3, e4]
    rw [hscan, addWatchDir_hotIds]
    rw [hhot]
    rfl
  · intro hmin
    by_cases hba : ib.lastHot < ia.lastHot
    · have e2 : demoteStep (updateSession s.sessions { info with lastHot := now })
          (0, ia.lastHot) (1, b) = (1, ib.lastHot) := by
        rw [demoteStep_lookup _ _ _ _ _ hlb1]
        dsimp only
        rw [if_pos hba]
      have e3 : demoteStep (updateSession s.sessions { info with lastHot := now })
          (1, ib.lastHot) (2, c) = (2, ic.lastHot) := by
        rw [demoteStep_lookup _ _ _ _ _ hlc1]
        dsimp only
        rw [if_pos hmin.2]
      have e4 : demoteStep (updateSession s.sessions { info with lastHot := now })
          (2, ic.lastHot) (3, id) = (2, ic.lastHot) := by
        rw [demoteStep_lookup _ _ _ _ _ hlid1]
        dsimp only
        rw [if_neg (by exact fun h => absurd (lt_of_lt_of_le h hmcn) (lt_irrefl _))]
      have hscan : demoteOldestScan
          (updateSession s.sessions { info with lastHot := now })
          [(0, a), (1, b), (2, c), (3, id)] (0, nowD) = (2, ic.lastHot) := by
        unfold demoteOldestScan
        simp only [List.foldl_cons, List.foldl_nil, e1, e2, e3, e4]
      rw [hscan, addWatchDir_hotIds]
      rw [hhot]
      rfl
    · have e2 : demoteStep (updateSession s.sessions { info with lastHot := now })
          (0, ia.lastHot) (1, b) = (0, ia.lastHot) := by
        rw [demoteStep_lookup _ _ _ _ _ hlb1]
        dsimp only
        rw [if_neg hba]
      have e3 : demoteStep (updateSession s.sessions { info with lastHot := now })
          (0, ia.lastHot) (2, c) = (2, ic.lastHot) := by
        rw [demoteStep_lookup _ _ _ _ _ hlc1]
        dsimp only
        rw [if_pos hmin.1]
      have e4 : demoteStep (updateSession s.sessions { info with lastHot := now })
          (2, ic.lastHot) (3, id) = (2, ic.lastHot) := by
        rw [demoteStep_lookup _ _ _ _ _ hlid1]
        dsimp only
        rw [if_neg (by exact fun h => absurd (lt_of_lt_of_le h hmcn) (lt_irrefl _))]
      have hscan : demoteOldestScan
          (updateSession s.sessions { info with lastHot := now })
          [(0, a), (1, b), (2, c), (3, id)] (0, nowD) = (2, ic.lastHot) := by
        unfold demoteOldestScan
        simp only [List.foldl_cons, List.foldl_nil, e1, e2, e3, e4]
      rw [hscan, addWatchDir_hotIds]
      rw [hhot]
      rfl


/-! Claim theorems. -/

/-- Claim C1 (code bug evidence): two successive RegisterSessions batches of
three distinct, increasingly recent sessions each leave six sessions in the
HOT list, exceeding the documented maximum of three — autoPromoteRecentLocked
appends to the HOT list with no capacity check. -/
theorem c1_register_batches_exceed_hot_cap :
    c1State.hotIds = ["c", "b", "a", "f", "e", "d"] ∧
    c1State.hotIds.length = 6 ∧
    maxHotSessions = 3 := by
  refine ⟨by decide, by decide, by decide⟩

/-- Claim C7: for the principal format, when the last recognized entry of the
single candidate is a user message (getClaudeSessionStatus = active), a stale
mtime yields Thinking and a fresh mtime yields Active, each with found=true. -/
theorem c7_trailing_user_mtime (now : Int) (f : SessFile)
    (h1 : strHasSuffix f.name ".jsonl" = true)
    (h2 : strHasPrefix f.name "agent-" = false)
    (hu : getClaudeSessionStatus f.entries = some WorktreeStatus.active) :
    (isFileRecentlyModified now f.mtime claudeActivityThreshold = false →
      detectClaudeSessionStatus now [f] = some WorktreeStatus.thinking) ∧
    (isFileRecentlyModified now f.mtime claudeActivityThreshold = true →
      detectClaudeSessionStatus now [f] = some WorktreeStatus.active) := by
  have h2a : (("agent-" : String) != "" && strHasPrefix f.name "agent-") = false := by
    simp [h2]
  have hsel : detectClaudeSessionStatus now [f] = detectClaudeFrom now [f] := by
    unfold detectClaudeSessionStatus
    rw [findRecent_singleton SessFile.name SessFile.mtime f "agent-" h1 h2a]
  constructor
  · intro hstale
    rw [hsel]
    simp only [detectClaudeFrom, hu, hstale]
    rfl
  · intro hfresh
    rw [hsel]
    simp only [detectClaudeFrom, hu, hfresh]
    rfl

/-- Claim C7 witness: mtime 10s old gives Thinking, 2s old gives Active. -/
theorem c7_trailing_user_mtime_witness :
    detectClaudeSessionStatus tNow [c7FileAt (tNow - 10 * second)] =
      some WorktreeStatus.thinking ∧
    detectClaudeSessionStatus tNow [c7FileAt (tNow - 2 * second)] =
      some WorktreeStatus.active := by
  constructor
  · exact (c7_trailing_user_mtime tNow (c7FileAt (tNow - 10 * second))
      (by decide) (by decide) (by decide)).1 (by decide)
  · exact (c7_trailing_user_mtime tNow (c7FileAt (tNow - 2 * second))
      (by decide) (by decide) (by decide)).2 (by decide)

/-- Claim C8: for the principal format with a stale mtime and no sub-agent
files, a trailing assistant message with a tool-invocation block yields
Waiting, and the same trailing assistant message with only text blocks, at
least one non-whitespace, yields Done, each with found=true. -/
theorem c8_trailing_assistant_tool_vs_text (now : Int) (f : SessFile)
    (es : List ClaudeEntry) (bs : List CBlock)
    (h1 : strHasSuffix f.name ".jsonl" = true)
    (h2 : strHasPrefix f.name "agent-" = false)
    (hstale : isFileRecentlyModified now f.mtime claudeActivityThreshold = false)
    (hsub : f.subagents = [])
    (hent : f.entries = es ++ [ClaudeEntry.assistant (some bs)]) :
    (CBlock.toolUse ∈ bs →
      detectClaudeSessionStatus now [f] = some WorktreeStatus.waiting) ∧
    ((∀ b ∈ bs, ∃ s, b = CBlock.text s) →
      (∃ s, CBlock.text s ∈ bs ∧ (trimSpace s == "") = false) →
      detectClaudeSessionStatus now [f] = some WorktreeStatus.done) := by
  have h2a : (("agent-" : String) != "" && strHasPrefix f.name "agent-") = false := by
    simp [h2]
  have hsel : detectClaudeSessionStatus now [f] = detectClaudeFrom now [f] := by
    unfold detectClaudeSessionStatus
    rw [findRecent_singleton SessFile.name SessFile.mtime f "agent-" h1 h2a]
  have hscan : ∀ c, getClaudeSessionStatus (es ++ [ClaudeEntry.assistant c]) =
      (if isPlaceholderAssistant c then some WorktreeStatus.thinking
       else if hasToolUse c then some WorktreeStatus.waiting
       else some WorktreeStatus.done) := by
    intro c
    unfold getClaudeSessionStatus
    rw [List.reverse_append]
    rfl
  constructor
  · intro htool
    have hplF : isPlaceholderAssistant (some bs) = false := by
      by_cases hp : isPlaceholderAssistant (some bs) = true
      · exfalso
        simp only [isPlaceholderAssistant] at hp
        have hx := List.all_eq_true.mp hp CBlock.toolUse htool
        simp at hx
      · exact Bool.of_not_eq_true hp
    have htu : hasToolUse (some bs) = true := by
      simp only [hasToolUse]
      rw [List.any_eq_true]
      exact ⟨CBlock.toolUse, htool, rfl⟩
    have hstat : getClaudeSessionStatus f.entries = some WorktreeStatus.waiting := by
      rw [hent, hscan (some bs), hplF, htu]
      simp
    rw [hsel]
    simp only [detectClaudeFrom, hstat]
    simp [claudeAssistantTail, hstale, hsub, subagentStatus, mostRecentSub]
  · intro htext hnonws
    have htuF : hasToolUse (some bs) = false := by
      by_cases hp : hasToolUse (some bs) = true
      · exfalso
        simp only [hasToolUse] at hp
        obtain ⟨b, hb, hbt⟩ := List.any_eq_true.mp hp
        obtain ⟨s, rfl⟩ := htext b hb
        simp at hbt
      · exact Bool.of_not_eq_true hp
    have hplF : isPlaceholderAssistant (some bs) = false := by
      obtain ⟨s, hsmem, hsne⟩ := hnonws
      by_cases hp : isPlaceholderAssistant (some bs) = true
      · exfalso
        simp only [isPlaceholderAssistant] at hp
        have hx := List.all_eq_true.mp hp (CBlock.text s) hsmem
        simp only at hx
        rw [hsne] at hx
        exact Bool.false_ne_true hx
      · exact Bool.of_not_eq_true hp
    have hstat : getClaudeSessionStatus f.entries = some WorktreeStatus.done := by
      rw [hent, hscan (some bs), hplF, htuF]
      simp
    rw [hsel]
    simp only [detectClaudeFrom, hstat]
    simp [claudeAssistantTail, hstale, hsub, subagentStatus, mostRecentSub]

/-- Claim C8 witness: concrete stale candidate; a tool_use block gives
Waiting, a non-whitespace text block gives Done. -/
theorem c8_trailing_assistant_tool_vs_text_witness :
    detectClaudeSessionStatus tNow [c8FileWith [CBlock.toolUse]] =
      some WorktreeStatus.waiting ∧
    detectClaudeSessionStatus tNow [c8FileWith [CBlock.text "ok"]] =
      some WorktreeStatus.done := by
  constructor
  · exact (c8_trailing_assistant_tool_vs_text tNow (c8FileWith [CBlock.toolUse])
      [ClaudeEntry.user] [CBlock.toolUse]
      (by decide) (by decide) (by decide) rfl rfl).1 (by decide)
  · exact (c8_trailing_assistant_tool_vs_text tNow (c8FileWith [CBlock.text "ok"])
      [ClaudeEntry.user] [CBlock.text "ok"]
      (by decide) (by decide) (by decide) rfl rfl).2
      (by intro b hb; simp at hb; exact ⟨"ok", hb⟩)
      ⟨"ok", by decide, by decide⟩

/-- Claim C2 counterexample: the principal classifier's single candidate is
2s-fresh (within the 5s threshold) with unparseable content, yet detect
returns found=false, not (Active, found=true): the principal format has no
mtime fast path. -/
theorem c2_claude_fresh_unparseable_not_active :
    isFileRecentlyModified tNow (tNow - second) claudeActivityThreshold = true ∧
    detectClaudeSessionStatus tNow c2Dir = none ∧
    detectClaudeSessionStatus tNow c2Dir ≠ some WorktreeStatus.active := by
  refine ⟨by decide, by decide, by decide⟩

/-- Claim C2 (amended): the mtime fast path exists for the formats without
sub-agents — Codex and Pi return (Active, found=true) for a candidate within
the 30s threshold without parsing its content — while the principal
classifier always parses first and reports found=false when no candidate
has a recognized entry, regardless of mtime. -/
theorem c2_fast_path_amended :
    (∀ (now : Int) (f : CodexFile),
      isFileRecentlyModified now f.mtime sessionActivityThreshold = true →
      detectCodexSessionStatus now (some f) = some WorktreeStatus.active) ∧
    (∀ (now : Int) (dir : List PiFile) (f : PiFile) (rest : List PiFile),
      findRecentJSONLFilesBy PiFile.name PiFile.mtime dir "" = f :: rest →
      isFileRecentlyModified now f.mtime sessionActivityThreshold = true →
      detectPiSessionStatus now dir = some WorktreeStatus.active) ∧
    (∀ (now : Int) (dir : List SessFile),
      (∀ f ∈ dir, getClaudeSessionStatus f.entries = none) →
      detectClaudeSessionStatus now dir = none) := by
  refine ⟨?_, ?_, ?_⟩
  · intro now f hfresh
    simp only [detectCodexSessionStatus, hfresh]
    rfl
  · intro now dir f rest hsort hfresh
    unfold detectPiSessionStatus
    rw [hsort]
    simp only [hfresh]
    rfl
  · intro now dir h
    unfold detectClaudeSessionStatus
    apply detectClaudeFrom_none
    intro g hg
    unfold findRecentJSONLFilesBy at hg
    rw [mem_sortBy] at hg
    exact h g (List.mem_of_mem_filter hg)

/-- Claim C2 witness: a fresh unparseable Codex file and a fresh unparseable
Pi file are reported Active without content support, while the fresh
unparseable principal candidate yields found=false. -/
theorem c2_fast_path_amended_witness :
    detectCodexSessionStatus tNow (some c2Codex) = some WorktreeStatus.active ∧
    detectPiSessionStatus tNow [c2Pi] = some WorktreeStatus.active ∧
    detectClaudeSessionStatus tNow c2Dir = none := by
  refine ⟨?_, ?_, ?_⟩
  · exact c2_fast_path_amended.1 tNow c2Codex (by decide)
  · exact c2_fast_path_amended.2.1 tNow [c2Pi] c2Pi [] (by decide) (by decide)
  · exact c2_fast_path_amended.2.2 tNow c2Dir (by decide)

/-- Claim C3 counterexample: parent stale and Done-eligible, sub-session
file modified 10s ago with a trailing user entry — the overall result is
Thinking, not the claimed Active: 10s exceeds the 5s activity threshold the
sub-agent is classified with. -/
theorem c3_subagent_10s_gives_thinking_not_active :
    detectClaudeSessionStatus tNow c3Dir = some WorktreeStatus.thinking ∧
    detectClaudeSessionStatus tNow c3Dir ≠ some WorktreeStatus.active := by
  refine ⟨by decide, by decide⟩

/-- Claim C4 counterexample: the Pi classifier's newest candidate has no
recognized role while the second-newest ends with a valid assistant
message, yet detect returns found=false — the Pi classifier inspects only
the newest candidate and never falls through. -/
theorem c4_pi_no_fallthrough :
    detectPiSessionStatus tNow c4Dir = none ∧
    getPiLastMessageStatus c4Old = some WorktreeStatus.waiting := by
  refine ⟨by decide, by decide⟩

/-- Claim C5 counterexample: a burst touching two distinct paths inside one
debounce window emits exactly one event, for the last path only; the first
path's event is lost, so coalescing is not per-path. -/
theorem c5_two_paths_one_event :
    emittedEvents cfg0 burst2 =
      [{ type := EventType.messageAdded, sessionID := "b.jsonl" }] ∧
    (∀ ev ∈ emittedEvents cfg0 burst2, ev.sessionID ≠ "a.jsonl") ∧
    (∃ e ∈ burst2, e.name = "a.jsonl") := by
  refine ⟨by decide, by decide, ?_⟩
  exact ⟨{ name := "a.jsonl", op := { create := false, write := true, remove := false } },
    by decide, rfl⟩

/-- Claim C3 (amended): with a stale Done-eligible parent, a sub-session
whose most recent file was modified 10s ago is within the 2-minute ceiling
and is classified; since 10s exceeds the 5s activity threshold, a sub-agent
whose last recognized entry is a user message yields overall Thinking (not
Active); a sub-session untouched beyond the 2-minute ceiling is ignored and
the parent's Done stands. -/
theorem c3_subagent_override_amended :
    (∀ (now : Int) (f : SessFile) (sub : SubFile),
      strHasSuffix f.name ".jsonl" = true →
      strHasPrefix f.name "agent-" = false →
      getClaudeSessionStatus f.entries = some WorktreeStatus.done →
      isFileRecentlyModified now f.mtime claudeActivityThreshold = false →
      f.subagents = [sub] →
      strHasSuffix sub.name ".jsonl" = true →
      0 < sub.mtime →
      getClaudeSessionStatus sub.entries = some WorktreeStatus.active →
      isFileRecentlyModified now sub.mtime subagentMaxStaleness = true →
      isFileRecentlyModified now sub.mtime claudeActivityThreshold = false →
      detectClaudeSessionStatus now [f] = some WorktreeStatus.thinking) ∧
    (∀ (now : Int) (f : SessFile) (sub : SubFile),
      strHasSuffix f.name ".jsonl" = true →
      strHasPrefix f.name "agent-" = false →
      getClaudeSessionStatus f.entries = some WorktreeStatus.done →
      isFileRecentlyModified now f.mtime claudeActivityThreshold = false →
      f.subagents = [sub] →
      strHasSuffix sub.name ".jsonl" = true →
      0 < sub.mtime →
      isFileRecentlyModified now sub.mtime subagentMaxStaleness = false →
      detectClaudeSessionStatus now [f] = some WorktreeStatus.done) := by
  constructor
  · intro now f sub h1 h2 hpstat hpstale hsubdir hsn hpos hsubstat hceil hnf
    have h2a : (("agent-" : String) != "" && strHasPrefix f.name "agent-") = false := by
      simp [h2]
    have hsel : detectClaudeSessionStatus now [f] = detectClaudeFrom now [f] := by
      unfold detectClaudeSessionStatus
      rw [findRecent_singleton SessFile.name SessFile.mtime f "agent-" h1 h2a]
    have hms := mostRecentSub_singleton sub hsn hpos
    have hsub1 : subagentStatus now [sub] claudeActivityThreshold =
        some WorktreeStatus.thinking := by
      unfold subagentStatus
      rw [hms]
      dsimp only
      rw [hceil]
      simp only [Bool.not_true, Bool.false_eq_true, if_false]
      rw [hsubstat]
      simp only [hnf, Bool.false_eq_true, if_false]
    rw [hsel]
    simp only [detectClaudeFrom, hpstat]
    unfold claudeAssistantTail
    simp only [hpstale, Bool.false_eq_true, if_false]
    rw [hsubdir, hsub1]
  · intro now f sub h1 h2 hpstat hpstale hsubdir hsn hpos hceilF
    have h2a : (("agent-" : String) != "" && strHasPrefix f.name "agent-") = false := by
      simp [h2]
    have hsel : detectClaudeSessionStatus now [f] = detectClaudeFrom now [f] := by
      unfold detectClaudeSessionStatus
      rw [findRecent_singleton SessFile.name SessFile.mtime f "agent-" h1 h2a]
    have hms := mostRecentSub_singleton sub hsn hpos
    have hsub1 : subagentStatus now [sub] claudeActivityThreshold = none := by
      unfold subagentStatus
      rw [hms]
      dsimp only
      rw [hceilF]
      simp only [Bool.not_false, if_true]
    rw [hsel]
    simp only [detectClaudeFrom, hpstat]
    unfold claudeAssistantTail
    simp only [hpstale, Bool.false_eq_true, if_false]
    rw [hsubdir, hsub1]

/-- Claim C3 witness: the 10s-old user-last sub-agent turns the stale Done
parent into Thinking; the 3-minute-old sub-agent is ignored and Done
stands. -/
theorem c3_subagent_override_amended_witness :
    detectClaudeSessionStatus tNow [c3Parent] = some WorktreeStatus.thinking ∧
    detectClaudeSessionStatus tNow [c3ParentOld] = some WorktreeStatus.done := by
  constructor
  · exact c3_subagent_override_amended.1 tNow c3Parent c3Sub
      (by decide) (by decide) (by decide) (by decide) rfl
      (by decide) (by decide) (by decide) (by decide) (by decide)
  · exact c3_subagent_override_amended.2 tNow c3ParentOld c3OldSub
      (by decide) (by decide) (by decide) (by decide) rfl
      (by decide) (by decide) (by decide)

/-- Claim C4 (amended): the principal classifier skips a candidate with no
recognized role and falls through to the next-most-recent one — newest
unrecognized plus a valid stale text-only second candidate yields Done with
found=true — but the Pi classifier inspects only the newest candidate and
returns found=false when it has no recognized role, regardless of older
candidates. -/
theorem c4_fallthrough_amended :
    (∀ (now : Int) (f : SessFile) (rest : List SessFile),
      getClaudeSessionStatus f.entries = none →
      detectClaudeFrom now (f :: rest) = detectClaudeFrom now rest) ∧
    (∀ (now : Int) (fNew fOld : SessFile),
      strHasSuffix fNew.name ".jsonl" = true →
      strHasPrefix fNew.name "agent-" = false →
      strHasSuffix fOld.name ".jsonl" = true →
      strHasPrefix fOld.name "agent-" = false →
      fOld.mtime < fNew.mtime →
      getClaudeSessionStatus fNew.entries = none →
      getClaudeSessionStatus fOld.entries = some WorktreeStatus.done →
      isFileRecentlyModified now fOld.mtime claudeActivityThreshold = false →
      fOld.subagents = [] →
      detectClaudeSessionStatus now [fNew, fOld] = some WorktreeStatus.done) ∧
    (∀ (now : Int) (dir : List PiFile) (f : PiFile) (rest : List PiFile),
      findRecentJSONLFilesBy PiFile.name PiFile.mtime dir "" = f :: rest →
      piLastRole f.entries = "" →
      isFileRecentlyModified now f.mtime sessionActivityThreshold = false →
      detectPiSessionStatus now dir = none) := by
  refine ⟨?_, ?_, ?_⟩
  · intro now f rest h
    simp only [detectClaudeFrom, h]
  · intro now fNew fOld hn1 hn2 ho1 ho2 hmt hnew hold holdstale hosub
    have hn2a : (("agent-" : String) != "" && strHasPrefix fNew.name "agent-") = false := by
      simp [hn2]
    have ho2a : (("agent-" : String) != "" && strHasPrefix fOld.name "agent-") = false := by
      simp [ho2]
    have hsel : detectClaudeSessionStatus now [fNew, fOld] =
        detectClaudeFrom now [fNew, fOld] := by
      unfold detectClaudeSessionStatus
      rw [findRecent_pair SessFile.name SessFile.mtime fNew fOld "agent-"
        hn1 hn2a ho1 ho2a hmt]
    rw [hsel]
    simp only [detectClaudeFrom, hnew, hold]
    unfold claudeAssistantTail
    simp only [holdstale, Bool.false_eq_true, if_false]
    rw [hosub]
    rfl
  · intro now dir f rest hsort hrole hstale
    unfold detectPiSessionStatus
    rw [hsort]
    simp only [hstale, Bool.false_eq_true, if_false]
    unfold getPiLastMessageStatus
    rw [hrole]
    rfl

/-- Claim C4 witness: the concrete Pi directory of the counterexample and a
concrete principal-format pair exercising the fallthrough. -/
theorem c4_fallthrough_amended_witness :
    detectClaudeFrom tNow (c2Dir ++ [c8FileWith [CBlock.text "ok"]]) =
      detectClaudeFrom tNow [c8FileWith [CBlock.text "ok"]] ∧
    detectClaudeSessionStatus tNow [c4ClaudeNew, c4ClaudeOld] =
      some WorktreeStatus.done ∧
    detectPiSessionStatus tNow c4Dir = none := by
  refine ⟨?_, ?_, ?_⟩
  · exact c4_fallthrough_amended.1 tNow
      { name := "x.jsonl", mtime := tNow - second, entries := [ClaudeEntry.other],
        subagents := [] }
      [c8FileWith [CBlock.text "ok"]] (by decide)
  · exact c4_fallthrough_amended.2.1 tNow c4ClaudeNew c4ClaudeOld
      (by decide) (by decide) (by decide) (by decide) (by decide)
      (by decide) (by decide) (by decide) rfl
  · exact c4_fallthrough_amended.2.2 tNow c4Dir
      { name := "new.jsonl", mtime := tNow - 60 * second, entries := [PiEntry.other] }
      [c4Old] (by decide) (by decide) (by decide)

/-- Claim C5 (amended): debouncing is per watcher, not per path — one settle
window emits at most one event, typed by the last accepted event's op
(create to SessionCreated, write to MessageAdded, remove swallowed) and
keyed by the last path observed; earlier distinct paths in the burst get no
event of their own. -/
theorem c5_debounce_amended :
    (∀ (cfg : WatchCfg) (burst : List FsEvent),
      (emittedEvents cfg burst).length ≤ 1) ∧
    (∀ (cfg : WatchCfg) (burst : List FsEvent) (e : FsEvent),
      (filteredBurst cfg burst).getLast? = some e →
      e.op.create = true →
      emittedEvents cfg burst =
        [{ type := EventType.sessionCreated, sessionID := cfg.extractID e.name }]) ∧
    (∀ (cfg : WatchCfg) (burst : List FsEvent) (e : FsEvent),
      (filteredBurst cfg burst).getLast? = some e →
      e.op.create = false → e.op.write = true →
      emittedEvents cfg burst =
        [{ type := EventType.messageAdded, sessionID := cfg.extractID e.name }]) ∧
    (∀ (cfg : WatchCfg) (burst : List FsEvent) (e : FsEvent),
      (filteredBurst cfg burst).getLast? = some e →
      e.op.create = false → e.op.write = false → e.op.remove = true →
      emittedEvents cfg burst = []) := by
  refine ⟨?_, ?_, ?_, ?_⟩
  · intro cfg burst
    unfold emittedEvents
    cases hl : (filteredBurst cfg burst).getLast? with
    | none => simp
    | some e =>
      cases hf : fireDebounce cfg e with
      | none => simp [hf]
      | some ev => simp [hf]
  · intro cfg burst e hl hc
    unfold emittedEvents
    rw [hl]
    unfold fireDebounce
    simp only [hc, if_true]
  · intro cfg burst e hl hc hw
    unfold emittedEvents
    rw [hl]
    unfold fireDebounce
    simp only [hc, hw, Bool.false_eq_true, if_false, if_true]
  · intro cfg burst e hl hc hw hr
    unfold emittedEvents
    rw [hl]
    unfold fireDebounce
    simp only [hc, hw, hr, Bool.false_eq_true, if_false, if_true]

/-- Claim C5 witness: concrete single-event bursts — create emits
SessionCreated, write emits MessageAdded, remove emits nothing, and the
two-path burst emits at most one event. -/
theorem c5_debounce_amended_witness :
    (emittedEvents cfg0 burst2).length ≤ 1 ∧
    emittedEvents cfg0 burstC =
      [{ type := EventType.sessionCreated, sessionID := "c.jsonl" }] ∧
    emittedEvents cfg0 burstW =
      [{ type := EventType.messageAdded, sessionID := "w.jsonl" }] ∧
    emittedEvents cfg0 burstR = [] := by
  refine ⟨?_, ?_, ?_, ?_⟩
  · exact c5_debounce_amended.1 cfg0 burst2
  · exact c5_debounce_amended.2.1 cfg0 burstC
      { name := "c.jsonl", op := { create := true, write := true, remove := false } }
      (by decide) (by decide)
  · exact c5_debounce_amended.2.2.1 cfg0 burstW
      { name := "w.jsonl", op := { create := false, write := true, remove := false } }
      (by decide) (by decide) (by decide)
  · exact c5_debounce_amended.2.2.2 cfg0 burstR
      { name := "r.jsonl", op := { create := false, write := false, remove := true } }
      (by decide) (by decide) (by decide) (by decide)

/-- Claim C9: a cwd-cache hit requires the stored (mtime, size) to exactly
match the live file's pair and returns the stored value; any present but
mismatched entry — including an mtime change at unchanged size — is a forced
miss that evicts the entry, and the subsequent getCodexSessionCWD recomputes
the value from the file's content. -/
theorem c9_cache_exact_match :
    (∀ (now : Int) (cache : CwdCache) (path : String) (info : FileInfo)
       (cache1 : CwdCache) (cwd : String),
      cachedCodexSessionCWD now cache path info = (cache1, some cwd) →
      ∃ e, cacheLookup cache path = some e ∧ e.modTime = info.modTime ∧
        e.size = info.size ∧ cwd = e.cwd) ∧
    (∀ (now : Int) (cache : CwdCache) (path : String) (info : FileInfo)
       (e : CwdEntry),
      cacheLookup cache path = some e →
      e.modTime ≠ info.modTime ∨ e.size ≠ info.size →
      cachedCodexSessionCWD now cache path info = (cacheErase cache path, none) ∧
      cacheLookup (cacheErase cache path) path = none) ∧
    (∀ (now : Int) (cache : CwdCache) (path : String) (info : FileInfo)
       (e : CwdEntry) (lines : List CodexMetaEntry) (cwd : String),
      cacheLookup cache path = some e →
      e.modTime ≠ info.modTime ∨ e.size ≠ info.size →
      scanSessionMeta lines = some cwd →
      (getCodexSessionCWD now cache path info lines).2 = cwd) := by
  refine ⟨?_, ?_, ?_⟩
  · intro now cache path info cache1 cwd h
    unfold cachedCodexSessionCWD at h
    cases hl : cacheLookup cache path with
    | none =>
      rw [hl] at h
      simp at h
    | some e =>
      rw [hl] at h
      dsimp only at h
      by_cases hc : (e.size == info.size && e.modTime == info.modTime) = true
      · rw [if_pos hc] at h
        have hpair := Prod.mk.injEq .. ▸ h
        have hcwd : cwd = e.cwd := by
          have := congrArg Prod.snd h
          simp at this
          exact this.symm
        obtain ⟨hsz, hmt⟩ := Bool.and_eq_true .. ▸ hc
        exact ⟨e, rfl, beq_iff_eq.mp hmt, beq_iff_eq.mp hsz, hcwd⟩
      · have hc2 : (e.size == info.size && e.modTime == info.modTime) = false :=
          Bool.of_not_eq_true hc
        rw [hc2] at h
        simp at h
  · intro now cache path info e hl hmis
    exact ⟨cachedCwd_mismatch now cache path info e hl hmis,
      cacheLookup_erase_self cache path⟩
  · intro now cache path info e lines cwd hl hmis hscan
    unfold getCodexSessionCWD
    rw [cachedCwd_mismatch now cache path info e hl hmis]
    dsimp only
    rw [hscan]

/-- Claim C9 witness: stored (mtime=5, size=7) against live (mtime=6,
size=7) — a forced miss that evicts and recomputes from the file. -/
theorem c9_cache_exact_match_witness :
    cachedCodexSessionCWD 10 c9Cache "/f" c9LiveInfo = ([], none) ∧
    cacheLookup (cacheErase c9Cache "/f") "/f" = none ∧
    (getCodexSessionCWD 10 c9Cache "/f" c9LiveInfo c9Lines).2 = "/fresh" := by
  have he : cacheLookup c9Cache "/f" =
      some { cwd := "/w", modTime := 5, size := 7, lastAccess := 0 } := by decide
  have hmis : ({ cwd := "/w", modTime := 5, size := 7, lastAccess := 0 } : CwdEntry).modTime
      ≠ c9LiveInfo.modTime ∨
      ({ cwd := "/w", modTime := 5, size := 7, lastAccess := 0 } : CwdEntry).size
      ≠ c9LiveInfo.size := by
    left
    decide
  refine ⟨?_, ?_, ?_⟩
  · have h := (c9_cache_exact_match.2.1 10 c9Cache "/f" c9LiveInfo
      { cwd := "/w", modTime := 5, size := 7, lastAccess := 0 } he hmis).1
    rw [h]
    decide
  · exact (c9_cache_exact_match.2.1 10 c9Cache "/f" c9LiveInfo
      { cwd := "/w", modTime := 5, size := 7, lastAccess := 0 } he hmis).2
  · exact c9_cache_exact_match.2.2 10 c9Cache "/f" c9LiveInfo
      { cwd := "/w", modTime := 5, size := 7, lastAccess := 0 } c9Lines "/fresh"
      he hmis (by decide)

/-- Claim C10: PromoteToHot with a session ID unknown to the watcher returns
the state unchanged — same session map, HOT list and watched directories,
and no event is produced (PromoteToHot never emits) — and the manager's
broadcast over watchers that all lack the ID is the identity. -/
theorem c10_promote_unknown_frame :
    (∀ (env : WatchEnv) (now nowDemote : Int) (s : TWState) (id : String),
      lookupSession s.sessions id = none →
      promoteToHot env now nowDemote s id = s) ∧
    (∀ (env : WatchEnv) (now nowDemote : Int) (ws : List TWState) (id : String),
      (∀ tw ∈ ws, lookupSession tw.sessions id = none) →
      managerPromoteSession env now nowDemote ws id = ws) := by
  have hframe : ∀ (env : WatchEnv) (now nowDemote : Int) (s : TWState) (id : String),
      lookupSession s.sessions id = none →
      promoteToHot env now nowDemote s id = s := by
    intro env now nowDemote s id h
    unfold promoteToHot
    rw [h]
  refine ⟨hframe, ?_⟩
  intro env now nowDemote ws id h
  induction ws with
  | nil => rfl
  | cons tw rest ih =>
    unfold managerPromoteSession at ih ⊢
    simp only [List.map_cons]
    rw [hframe env now nowDemote tw id (h tw (List.mem_cons_self tw rest))]
    have := ih fun t ht => h t (List.mem_cons_of_mem tw ht)
    rw [this]

/-- Claim C10 witness: promoting an unknown ID against a one-session watcher
changes nothing, directly and through the manager broadcast. -/
theorem c10_promote_unknown_frame_witness :
    promoteToHot env0 1 2 c10State "y" = c10State ∧
    managerPromoteSession env0 1 2 [c10State] "y" = [c10State] := by
  constructor
  · exact c10_promote_unknown_frame.1 env0 1 2 c10State "y" (by decide)
  · exact c10_promote_unknown_frame.2 env0 1 2 [c10State] "y"
      (by intro tw htw; simp at htw; rw [htw]; decide)

/-- Claim C6: promoting a not-yet-hot session while the HOT list holds three
evicts exactly the hot session whose LastHot stamp is strictly the oldest
(whichever position it occupies), keeping the other two plus the newcomer;
consequently, registering five sessions as a batch and then promoting all
five in order leaves exactly the three last-promoted sessions hot, with the
two least-recently-promoted evicted to cold. -/
theorem c6_promotion_eviction :
    (∀ (env : WatchEnv) (s : TWState) (a b c id : String)
       (ia ib ic info : SessionInfo) (now nowD : Int),
      s.hotIds = [a, b, c] →
      lookupSession s.sessions a = some ia →
      lookupSession s.sessions b = some ib →
      lookupSession s.sessions c = some ic →
      lookupSession s.sessions id = some info →
      id ≠ a → id ≠ b → id ≠ c →
      ia.lastHot ≤ now → ib.lastHot ≤ now → ic.lastHot ≤ now →
      ia.lastHot < nowD →
      ((ia.lastHot < ib.lastHot ∧ ia.lastHot < ic.lastHot →
         (promoteToHot env now nowD s id).hotIds = [b, c, id]) ∧
       (ib.lastHot < ia.lastHot ∧ ib.lastHot < ic.lastHot →
         (promoteToHot env now nowD s id).hotIds = [a, c, id]) ∧
       (ic.lastHot < ia.lastHot ∧ ic.lastHot < ib.lastHot →
         (promoteToHot env now nowD s id).hotIds = [a, b, id]))) ∧
    (c6State.hotIds = ["s3", "s4", "s5"] ∧
     List.map SessionInfo.id c6State.sessions = ["s1", "s2", "s3", "s4", "s5"] ∧
     c6State.hotIds.length = maxHotSessions) := by
  constructor
  · intro env s a b c id ia ib ic info now nowD hhot hla hlb hlc hlid hna hnb hnc
      hman hmbn hmcn hda
    exact promote_at_capacity_evicts_oldest env s a b c id ia ib ic info now nowD
      hhot hla hlb hlc hlid hna hnb hnc hman hmbn hmcn hda
  · refine ⟨by decide, by decide, by decide⟩

/-- Claim C6 witness: a HOT list [a, b, c] at capacity with LastHot stamps
11, 12, 13 — promoting the cold session d evicts a, the strictly oldest. -/
theorem c6_promotion_eviction_witness :
    (promoteToHot env0 50 51 c6CapState "d").hotIds = ["b", "c", "d"] := by
  exact (c6_promotion_eviction.1 env0 c6CapState "a" "b" "c" "d"
    { id := "a", path := "pa", modTime := 1, lastHot := 11, fileSize := 1 }
    { id := "b", path := "pb", modTime := 2, lastHot := 12, fileSize := 1 }
    { id := "c", path := "pc", modTime := 3, lastHot := 13, fileSize := 1 }
    { id := "d", path := "pd", modTime := 4, lastHot := 0, fileSize := 1 }
    50 51 (by decide) (by decide) (by decide) (by decide) (by decide)
    (by decide) (by decide) (by decide) (by decide) (by decide) (by decide)
    (by decide)).1 ⟨by decide, by decide⟩

end Sidecar
